import Mathlib

/-!
Shallow embedding of `telegram_marketplace_bot.py` (a Telegram classifieds
bot): the chat relay (deterministic chat identity, message log, read flags,
paging), the moderation gate (admin-only approve/deny), the listing edit and
creation flows (photo collection, category matching, price parsing), and the
database rows they touch.  Machine integers in the source are Python ints,
so `Int`/`Nat` model them exactly; SQLite rows become Lean structures and
tables become lists kept in insertion (rowid) order, which is the order
`AUTOINCREMENT` ids give.
-/

namespace Marketplace

/-- `ADMIN_ID` constant from the configuration section of the source. -/
def ADMIN_ID : Int := 7066340788

/-- The fixed `CATEGORIES` vocabulary, in source order. -/
def CATEGORIES : List String :=
  ["Личные вещи", "Транспорт", "Работа", "Для дома и дачи",
   "Недвижимость", "Предложение услуг", "Хобби и отдых", "Электроника"]

/-- The fixed `CONDITIONS` vocabulary. -/
def CONDITIONS : List String := ["Новое", "Б/у"]

/-! ## Chat relay: rows and operations -/

/-- A row of the `messages` table.  `read` is the SQL 0/1 flag;
`created_at` is an abstract timestamp. -/
structure Msg where
  id : Nat
  chat_id : String
  sender_id : Int
  receiver_id : Int
  listing_id : Nat
  text : String
  created_at : Nat
  read : Nat
  deriving DecidableEq, Repr

/-- A row of the `chats` table. -/
structure ChatRow where
  chat_id : String
  user1_id : Int
  user2_id : Int
  listing_id : Nat
  last_message_time : Nat
  deriving DecidableEq, Repr

/-- The chat-relay slice of the SQLite database: the `messages` and `chats`
tables in rowid order, plus the next `AUTOINCREMENT` message id. -/
structure MsgDB where
  messages : List Msg
  chats : List ChatRow
  nextMsgId : Nat
  deriving DecidableEq, Repr

/-- `chat_id_from_users(user1, user2, listing_id)`: sorts the two user ids
and packs `"{a}_{b}_{listing_id}"`. -/
def chat_id_from_users (user1 user2 : Int) (listing_id : Nat) : String :=
  let a := min user1 user2
  let b := max user1 user2
  toString a ++ "_" ++ toString b ++ "_" ++ toString listing_id

/-- `ensure_chat(chat_id, user1, user2, listing_id)`: inserts a `chats` row
only when no row with this `chat_id` exists; `now` models `datetime('now')`. -/
def ensure_chat (db : MsgDB) (chat_id : String) (user1 user2 : Int)
    (listing_id : Nat) (now : Nat) : MsgDB :=
  if db.chats.any (fun c => c.chat_id == chat_id) then db
  else { db with chats := db.chats ++
          [⟨chat_id, user1, user2, listing_id, now⟩] }

/-- `store_message(chat_id, sender_id, receiver_id, listing_id, text)`:
inserts one message row (read flag 0), sets `last_message_time` on the
matching `chats` row, then sets `read = 1` on every message of the chat
whose receiver is the sender.  `now` models `datetime('now')` and
`CURRENT_TIMESTAMP`. -/
def store_message (db : MsgDB) (chat_id : String) (sender_id receiver_id : Int)
    (listing_id : Nat) (text : String) (now : Nat) : MsgDB :=
  let db1 : MsgDB :=
    { db with
      messages := db.messages ++
        [⟨db.nextMsgId, chat_id, sender_id, receiver_id, listing_id, text, now, 0⟩],
      nextMsgId := db.nextMsgId + 1 }
  let db2 : MsgDB :=
    { db1 with chats := db1.chats.map (fun c =>
        if c.chat_id = chat_id then { c with last_message_time := now } else c) }
  { db2 with messages := db2.messages.map (fun m =>
      if m.chat_id = chat_id ∧ m.receiver_id = sender_id
      then { m with read := 1 } else m) }

/-- `fetch_messages(chat_id, offset, limit, reverse)`: the `messages` table
is in rowid order, so `ORDER BY id ASC` is the filtered list itself and
`ORDER BY id DESC` is its reversal; `LIMIT ? OFFSET ?` is drop-then-take,
and the `reverse=True` branch reverses the page back to chronological
order before returning. -/
def fetch_messages (msgs : List Msg) (chat_id : String) (offset limit : Nat)
    (reverse : Bool) : List Msg :=
  let fl := msgs.filter (fun m => m.chat_id == chat_id)
  let ordered := if reverse then fl.reverse else fl
  let page := (ordered.drop offset).take limit
  if reverse then page.reverse else page

/-! ## Listings, photos, the moderation gate and the edit flow -/

/-- A row of the `listings` table (the columns the handlers read). -/
structure ListingRow where
  id : Nat
  owner_id : Int
  city : String
  microdistrict : String
  category : String
  condition : String
  title : String
  description : String
  price : Int
  status : String
  deriving DecidableEq, Repr

/-- The listing slice of the database: `listings` rows plus `photos` rows
`(listing_id, file_id)`, both in rowid order. -/
structure ListingDB where
  listings : List ListingRow
  photos : List (Nat × String)
  deriving DecidableEq, Repr

/-- `update_listing_status(listing_id, status)`: a plain
`UPDATE listings SET status = ? WHERE id = ?`, with no guard on the
current status. -/
def update_listing_status (db : ListingDB) (listing_id : Nat)
    (status : String) : ListingDB :=
  { db with listings := db.listings.map (fun l =>
      if l.id = listing_id then { l with status := status } else l) }

/-- The field/value pairs actually passed to `update_listing_field` by the
edit handlers (`price`, `category`, `description`). -/
inductive FieldUpdate
  | price (v : Int)
  | category (v : String)
  | description (v : String)
  deriving DecidableEq, Repr

/-- `update_listing_field(listing_id, field, value)`:
`UPDATE listings SET {field} = ? WHERE id = ?`. -/
def update_listing_field (db : ListingDB) (listing_id : Nat)
    (u : FieldUpdate) : ListingDB :=
  { db with listings := db.listings.map (fun l =>
      if l.id = listing_id then
        match u with
        | .price v => { l with price := v }
        | .category v => { l with category := v }
        | .description v => { l with description := v }
      else l) }

/-- `get_listing(listing_id)`: the first `listings` row with this id (SQL
`WHERE id = ?` on the primary key) paired with its photo file ids. -/
def get_listing (db : ListingDB) (listing_id : Nat) :
    Option (ListingRow × List String) :=
  match db.listings.find? (fun l => l.id == listing_id) with
  | none => none
  | some l => some (l, (db.photos.filter
      (fun p => p.1 == listing_id)).map (fun p => p.2))

/-- `clear_listing_photos(listing_id)`:
`DELETE FROM photos WHERE listing_id = ?`. -/
def clear_listing_photos (db : ListingDB) (listing_id : Nat) : ListingDB :=
  { db with photos := db.photos.filter (fun p => !(p.1 == listing_id)) }

/-- `add_photo(listing_id, file_id)`: inserts one `photos` row. -/
def add_photo (db : ListingDB) (listing_id : Nat) (file_id : String) :
    ListingDB :=
  { db with photos := db.photos ++ [(listing_id, file_id)] }

/-- The `for file_id in photos: add_photo(...)` loop used when persisting
a listing's collected photos. -/
def attach_photos (db : ListingDB) (listing_id : Nat)
    (photos : List String) : ListingDB :=
  photos.foldl (fun d p => add_photo d listing_id p) db

/-! ## Text helpers mirroring the Python string methods -/

/-- The whitespace set of Python `str.strip()` (ASCII part). -/
def PY_WHITESPACE : List Char := [' ', '\t', '\n', '\r', '\x0b', '\x0c']

/-- Python `str.strip()`. -/
def pyStrip (s : String) : String :=
  ⟨((s.data.dropWhile (fun c => PY_WHITESPACE.contains c)).reverse.dropWhile
      (fun c => PY_WHITESPACE.contains c)).reverse⟩

/-- Python `str.lower()` on the alphabets the bot uses: ASCII letters and
the Russian alphabet (`А`–`Я` shift by 32 code points, `Ё` maps to `ё`). -/
def pyLowerChar (c : Char) : Char :=
  if 'A' ≤ c ∧ c ≤ 'Z' then Char.ofNat (c.toNat + 32)
  else if 'А' ≤ c ∧ c ≤ 'Я' then Char.ofNat (c.toNat + 32)
  else if c = 'Ё' then 'ё'
  else c

/-- Python `str.lower()`, character-wise. -/
def pyLower (s : String) : String := ⟨s.data.map pyLowerChar⟩

/-- Python `str.startswith(pre)`. -/
def pyStartsWith (s : String) (pre : String) : Bool :=
  pre.data.isPrefixOf s.data

/-- Python's substring test `needle in haystack`. -/
def pyIn (needle : List Char) : List Char → Bool
  | [] => needle.isEmpty
  | c :: rest => needle.isPrefixOf (c :: rest) || pyIn needle rest

/-- `int(re.sub(r"\D", "", text))` with the `except` branch: strip the
non-digits and read the rest as a number, `0` when nothing is left. -/
def parse_price (text : String) : Int :=
  let digits := text.data.filter (fun c => c.isDigit)
  if digits.isEmpty then 0
  else Int.ofNat (digits.foldl (fun acc c => acc * 10 + (c.toNat - 48)) 0)

/-! ## Edit handlers and the moderation gate.  Handlers return the updated
database plus the notifications they send, as `(recipient, text)` pairs. -/

/-- `finish_editing(listing_id, user_id)`: set the status back to
`pending`, notify the user, and (the `ADMIN_ID` constant being nonzero)
re-send the moderation notification to the admin when the listing still
exists. -/
def finish_editing (db : ListingDB) (listing_id : Nat) (user_id : Int) :
    ListingDB × List (Int × String) :=
  let db' := update_listing_status db listing_id "pending"
  let userNote : List (Int × String) :=
    [(user_id, "Лот обновлён и отправлен на модерацию.")]
  let adminNote : List (Int × String) :=
    match get_listing db' listing_id with
    | some (l, _) => [(ADMIN_ID,
        "Обновление лота на модерацию:\nID лота: " ++ toString listing_id ++
        "\nПродавец: " ++ toString user_id ++
        "\nНазвание: " ++ l.title ++
        "\nКатегория: " ++ l.category ++
        "\nЦена: " ++ toString l.price ++ "₽")]
    | none => []
  (db', userNote ++ adminNote)

/-- `handle_edit_price`: parse the new price, update the field, and run
`finish_editing`. -/
def handle_edit_price (db : ListingDB) (listing_id : Nat) (user_id : Int)
    (text : String) : ListingDB × List (Int × String) :=
  finish_editing (update_listing_field db listing_id
    (.price (parse_price text))) listing_id user_id

/-- `handle_edit_description`: update category (chosen at the previous
step) and description (stripped, truncated to 150 chars), then run
`finish_editing`. -/
def handle_edit_description (db : ListingDB) (listing_id : Nat)
    (user_id : Int) (edit_new_category : String) (text : String) :
    ListingDB × List (Int × String) :=
  let desc : String := ⟨(pyStrip text).data.take 150⟩
  finish_editing
    (update_listing_field
      (update_listing_field db listing_id (.category edit_new_category))
      listing_id (.description desc))
    listing_id user_id

/-- `admin_accept`: refuse non-admin actors, otherwise set the status to
`approved` (unconditionally) and notify the owner.  Returns the database,
the callback answer, and the notifications sent. -/
def admin_accept (db : ListingDB) (actor : Int) (listing_id : Nat) :
    ListingDB × String × List (Int × String) :=
  if actor ≠ ADMIN_ID then (db, "Недостаточно прав", [])
  else
    let db' := update_listing_status db listing_id "approved"
    let notes : List (Int × String) :=
      match get_listing db' listing_id with
      | some (l, _) => [(l.owner_id,
          "Ваш лот '" ++ l.title ++ "' принят и опубликован!")]
      | none => []
    (db', "Лот одобрен.", notes)

/-- `admin_deny`: refuse non-admin actors, otherwise set the status to
`denied` (unconditionally) and notify the owner. -/
def admin_deny (db : ListingDB) (actor : Int) (listing_id : Nat) :
    ListingDB × String × List (Int × String) :=
  if actor ≠ ADMIN_ID then (db, "Недостаточно прав", [])
  else
    let db' := update_listing_status db listing_id "denied"
    let notes : List (Int × String) :=
      match get_listing db' listing_id with
      | some (l, _) => [(l.owner_id,
          "Ваш лот '" ++ l.title ++
          "' отклонён и удалён. Пожалуйста, проверьте правила размещения.")]
      | none => []
    (db', "Лот отклонён.", notes)

/-! ## The photo-collecting steps of the creation and edit flows -/

/-- One inbound Telegram message as the photo handlers see it: a text, a
photo (its best-resolution file id), or anything else. -/
inductive PhotoInput
  | text (s : String)
  | photo (file_id : String)
  | other
  deriving DecidableEq, Repr

/-- The creation flow's photo step: context photo list plus whether the
flow advanced past the photo step (after which this handler is no longer
dispatched). -/
structure CreatePhotoState where
  photos : List String
  advanced : Bool
  deriving DecidableEq, Repr

/-- `handle_listing_photo`: a skip text advances; a photo is appended only
below 3, advancing on the third; anything else re-prompts. -/
def handle_listing_photo (st : CreatePhotoState) (e : PhotoInput) :
    CreatePhotoState :=
  if st.advanced then st
  else match e with
  | .text s =>
      if pyStartsWith (pyLower s) "проп" then { st with advanced := true }
      else st
  | .photo file_id =>
      if st.photos.length < 3 then
        let photos := st.photos ++ [file_id]
        if photos.length < 3 then { st with photos := photos }
        else { photos := photos, advanced := true }
      else st
  | .other => st

/-- The edit flow's photo step: context photo list, the database, the
notifications sent so far, and whether editing finished (the FSM state was
cleared). -/
structure EditPhotoState where
  edit_photos : List String
  db : ListingDB
  notes : List (Int × String)
  done : Bool
  deriving DecidableEq, Repr

/-- `handle_edit_photos`: a skip text finishes without touching the photo
rows; a photo is appended while below 3, and on reaching 3 the stored rows
are replaced (`clear_listing_photos` then `add_photo` per context photo)
and editing finishes; anything else re-prompts. -/
def handle_edit_photos (listing_id : Nat) (user_id : Int)
    (st : EditPhotoState) (e : PhotoInput) : EditPhotoState :=
  if st.done then st
  else match e with
  | .text s =>
      if pyStartsWith (pyLower s) "проп" then
        let r := finish_editing st.db listing_id user_id
        { st with db := r.1, notes := st.notes ++ r.2, done := true }
      else st
  | .photo file_id =>
      if st.edit_photos.length < 3 then
        let photos := st.edit_photos ++ [file_id]
        if photos.length < 3 then { st with edit_photos := photos }
        else
          let db2 := attach_photos (clear_listing_photos st.db listing_id)
            listing_id photos
          let r := finish_editing db2 listing_id user_id
          { edit_photos := photos, db := r.1,
            notes := st.notes ++ r.2, done := true }
      else
        let db2 := attach_photos (clear_listing_photos st.db listing_id)
          listing_id st.edit_photos
        let r := finish_editing db2 listing_id user_id
        { st with db := r.1, notes := st.notes ++ r.2, done := true }
  | .other => st

/-! ## Category matching -/

/-- `handle_listing_category`: strip the input, filter the vocabulary by
case-insensitive substring match, accept the first hit (`matches[0]`),
re-prompt (`none`) when nothing matches. -/
def handle_listing_category (input : String) : Option String :=
  let user_cat := pyStrip input
  (CATEGORIES.filter (fun cat =>
    pyIn (pyLower user_cat).data (pyLower cat).data)).head?

/-- `handle_edit_category`: the same matching logic as
`handle_listing_category`, used by the category+description edit. -/
def handle_edit_category (input : String) : Option String :=
  let category := pyStrip input
  (CATEGORIES.filter (fun cat =>
    pyIn (pyLower category).data (pyLower cat).data)).head?

end Marketplace

namespace Marketplace

/-- **C1.** Chat identity is symmetric: swapping the two user ids yields
the same chat id for every listing. -/
theorem chat_id_from_users_symm (a b : Int) (L : Nat) :
    chat_id_from_users a b L = chat_id_from_users b a L := by
  unfold chat_id_from_users
  rw [min_comm, max_comm]

/-- After `ensure_chat`, some row with the given chat id exists. -/
lemma ensure_chat_any (db : MsgDB) (cid : String) (u1 u2 : Int)
    (lid now : Nat) :
    ((ensure_chat db cid u1 u2 lid now).chats.any
      (fun c => c.chat_id == cid)) = true := by
  unfold ensure_chat
  by_cases h : db.chats.any (fun c => c.chat_id == cid) = true
  · simp [h]
  · simp only [h, Bool.false_eq_true, if_false]
    simp [List.any_append]

/-- When a row with the chat id already exists, `ensure_chat` is a no-op. -/
lemma ensure_chat_of_any (db : MsgDB) (cid : String) (u1 u2 : Int)
    (lid now : Nat) (h : db.chats.any (fun c => c.chat_id == cid) = true) :
    ensure_chat db cid u1 u2 lid now = db := by
  unfold ensure_chat
  simp [h]

/-- A filter count below two on the `chats` table forces a count of exactly
one matching row after `ensure_chat`. -/
lemma ensure_chat_count (db : MsgDB) (cid : String) (u1 u2 : Int)
    (lid now : Nat)
    (h : (db.chats.filter (fun c => c.chat_id == cid)).length ≤ 1) :
    ((ensure_chat db cid u1 u2 lid now).chats.filter
      (fun c => c.chat_id == cid)).length = 1 := by
  unfold ensure_chat
  by_cases ha : db.chats.any (fun c => c.chat_id == cid) = true
  · simp only [ha, if_true]
    rcases List.any_eq_true.mp ha with ⟨c, hc, hcid⟩
    have hmem : c ∈ db.chats.filter (fun c => c.chat_id == cid) :=
      List.mem_filter.mpr ⟨hc, hcid⟩
    have hpos : 0 < (db.chats.filter (fun c => c.chat_id == cid)).length :=
      List.length_pos.mpr (List.ne_nil_of_mem hmem)
    omega
  · simp only [ha, Bool.false_eq_true, if_false]
    have hzero : (db.chats.filter (fun c => c.chat_id == cid)) = [] := by
      rw [List.filter_eq_nil_iff]
      intro c hc
      intro hcid
      exact ha (List.any_eq_true.mpr ⟨c, hc, hcid⟩)
    simp [List.filter_append, hzero]

/-- **C4.** `ensure_chat` is idempotent: one call followed by any number of
further calls with matching arguments (at arbitrary later clock values)
leaves the database exactly as after the first call, and — provided the
`chats` primary key held beforehand (at most one row per chat id) — exactly
one row with that chat id is stored afterwards. -/
theorem ensure_chat_idempotent (db : MsgDB) (cid : String) (u1 u2 : Int)
    (lid : Nat) (t0 : Nat) (ts : List Nat)
    (h : (db.chats.filter (fun c => c.chat_id == cid)).length ≤ 1) :
    (ts.foldl (fun d t => ensure_chat d cid u1 u2 lid t)
        (ensure_chat db cid u1 u2 lid t0)
      = ensure_chat db cid u1 u2 lid t0) ∧
    ((ts.foldl (fun d t => ensure_chat d cid u1 u2 lid t)
        (ensure_chat db cid u1 u2 lid t0)).chats.filter
          (fun c => c.chat_id == cid)).length = 1 := by
  have hfold : ∀ (l : List Nat),
      l.foldl (fun d t => ensure_chat d cid u1 u2 lid t)
        (ensure_chat db cid u1 u2 lid t0)
      = ensure_chat db cid u1 u2 lid t0 := by
    intro l
    induction l with
    | nil => rfl
    | cons t ts ih =>
        have hstep : ensure_chat (ensure_chat db cid u1 u2 lid t0)
            cid u1 u2 lid t = ensure_chat db cid u1 u2 lid t0 :=
          ensure_chat_of_any _ cid u1 u2 lid t
            (ensure_chat_any db cid u1 u2 lid t0)
        simpa [List.foldl_cons, hstep] using ih
  refine ⟨hfold ts, ?_⟩
  rw [hfold ts]
  exact ensure_chat_count db cid u1 u2 lid t0 h

/-- Closed witness for C4: two extra `ensure_chat` calls on an initially
empty database collapse to the first, leaving one chat row. -/
theorem ensure_chat_idempotent_witness :
    (([5, 7] : List Nat).foldl
        (fun d t => ensure_chat d "1_2_3" 1 2 3 t)
        (ensure_chat ⟨[], [], 0⟩ "1_2_3" 1 2 3 0)
      = ensure_chat ⟨[], [], 0⟩ "1_2_3" 1 2 3 0) ∧
    ((([5, 7] : List Nat).foldl
        (fun d t => ensure_chat d "1_2_3" 1 2 3 t)
        (ensure_chat ⟨[], [], 0⟩ "1_2_3" 1 2 3 0)).chats.filter
          (fun c => c.chat_id == "1_2_3")).length = 1 :=
  ensure_chat_idempotent ⟨[], [], 0⟩ "1_2_3" 1 2 3 0 [5, 7] (by decide)

/-- The `messages` table after `store_message`: the old rows plus the one
inserted row, with the read-flag update mapped over all of them. -/
lemma store_message_messages (db : MsgDB) (cid : String)
    (sender receiver : Int) (lid : Nat) (text : String) (now : Nat) :
    (store_message db cid sender receiver lid text now).messages
      = (db.messages ++
          ([⟨db.nextMsgId, cid, sender, receiver, lid, text, now, 0⟩] :
            List Msg)).map
          (fun (m : Msg) => if m.chat_id = cid ∧ m.receiver_id = sender
                    then { m with read := 1 } else m) := rfl

/-- The `chats` table after `store_message`: `last_message_time` set on the
rows with the given chat id, all rows kept. -/
lemma store_message_chats (db : MsgDB) (cid : String)
    (sender receiver : Int) (lid : Nat) (text : String) (now : Nat) :
    (store_message db cid sender receiver lid text now).chats
      = db.chats.map (fun (c : ChatRow) => if c.chat_id = cid
          then { c with last_message_time := now } else c) := rfl

/-- **C2.** `store_message` adds exactly one message row (the ids of the
old rows survive and exactly the next autoincrement id is appended, so no
other row is added or removed), afterwards every message of the chat whose
receiver is the new sender carries read flag 1, rows not matching that
read-update survive unchanged, matching rows survive with the flag set, and
every `chats` row with this chat id gets the new last-activity time while
other chats are untouched. -/
theorem store_message_spec (db : MsgDB) (cid : String)
    (sender receiver : Int) (lid : Nat) (text : String) (now : Nat) :
    ((store_message db cid sender receiver lid text now).messages.length
        = db.messages.length + 1) ∧
    ((store_message db cid sender receiver lid text now).messages.map
        (fun m => m.id) = db.messages.map (fun m => m.id) ++ [db.nextMsgId]) ∧
    (∀ m ∈ (store_message db cid sender receiver lid text now).messages,
        m.chat_id = cid → m.receiver_id = sender → m.read = 1) ∧
    (∀ m ∈ db.messages, ¬(m.chat_id = cid ∧ m.receiver_id = sender) →
        m ∈ (store_message db cid sender receiver lid text now).messages) ∧
    (∀ m ∈ db.messages, m.chat_id = cid → m.receiver_id = sender →
        ({ m with read := 1 } : Msg)
          ∈ (store_message db cid sender receiver lid text now).messages) ∧
    (∀ c ∈ db.chats, c.chat_id = cid →
        ({ c with last_message_time := now } : ChatRow)
          ∈ (store_message db cid sender receiver lid text now).chats) ∧
    (∀ c ∈ db.chats, c.chat_id ≠ cid →
        c ∈ (store_message db cid sender receiver lid text now).chats) := by
  have hid : ∀ m : Msg,
      (if m.chat_id = cid ∧ m.receiver_id = sender
       then { m with read := 1 } else m).id = m.id := by
    intro m
    by_cases h : m.chat_id = cid ∧ m.receiver_id = sender <;> simp [h]
  refine ⟨?_, ?_, ?_, ?_, ?_, ?_, ?_⟩
  · rw [store_message_messages]; simp
  · rw [store_message_messages]
    simp only [List.map_append, List.map_map, List.map_cons, List.map_nil,
      Function.comp_def, hid]
    by_cases hr : receiver = sender <;> simp [hr]
  · rw [store_message_messages]
    intro m' hm' h1 h2
    rcases List.mem_map.mp hm' with ⟨m, hm, rfl⟩
    by_cases h : m.chat_id = cid ∧ m.receiver_id = sender
    · simp [h]
    · rw [if_neg h] at h1 h2 ⊢
      exact absurd ⟨h1, h2⟩ h
  · intro m hm hnot
    rw [store_message_messages]
    have heq : (if m.chat_id = cid ∧ m.receiver_id = sender
        then { m with read := 1 } else m) = m := if_neg hnot
    exact heq ▸ List.mem_map_of_mem _ (List.mem_append_left _ hm)
  · intro m hm h1 h2
    rw [store_message_messages]
    have heq : (if m.chat_id = cid ∧ m.receiver_id = sender
        then { m with read := 1 } else m) = { m with read := 1 } :=
      if_pos ⟨h1, h2⟩
    exact heq ▸ List.mem_map_of_mem _ (List.mem_append_left _ hm)
  · intro c hc h1
    rw [store_message_chats]
    have heq : (if c.chat_id = cid
        then { c with last_message_time := now } else c)
        = { c with last_message_time := now } := if_pos h1
    exact heq ▸ List.mem_map_of_mem _ hc
  · intro c hc h1
    rw [store_message_chats]
    have heq : (if c.chat_id = cid
        then { c with last_message_time := now } else c) = c := if_neg h1
    exact heq ▸ List.mem_map_of_mem _ hc

/-- Closed witness for C2, on a database holding one chat row and one
unread message addressed to the replying sender. -/
theorem store_message_spec_witness :
    ((store_message ⟨[⟨0, "a", 2, 1, 3, "hi", 10, 0⟩],
        [⟨"a", 1, 2, 3, 10⟩], 1⟩ "a" 1 2 3 "re" 20).messages.length
        = (⟨[⟨0, "a", 2, 1, 3, "hi", 10, 0⟩], [⟨"a", 1, 2, 3, 10⟩], 1⟩ :
            MsgDB).messages.length + 1) ∧
    ((store_message ⟨[⟨0, "a", 2, 1, 3, "hi", 10, 0⟩],
        [⟨"a", 1, 2, 3, 10⟩], 1⟩ "a" 1 2 3 "re" 20).messages.map
        (fun m => m.id)
        = (⟨[⟨0, "a", 2, 1, 3, "hi", 10, 0⟩], [⟨"a", 1, 2, 3, 10⟩], 1⟩ :
            MsgDB).messages.map (fun m => m.id) ++
          [(⟨[⟨0, "a", 2, 1, 3, "hi", 10, 0⟩], [⟨"a", 1, 2, 3, 10⟩], 1⟩ :
            MsgDB).nextMsgId]) ∧
    (∀ m ∈ (store_message ⟨[⟨0, "a", 2, 1, 3, "hi", 10, 0⟩],
        [⟨"a", 1, 2, 3, 10⟩], 1⟩ "a" 1 2 3 "re" 20).messages,
        m.chat_id = "a" → m.receiver_id = 1 → m.read = 1) ∧
    (∀ m ∈ (⟨[⟨0, "a", 2, 1, 3, "hi", 10, 0⟩], [⟨"a", 1, 2, 3, 10⟩], 1⟩ :
        MsgDB).messages, ¬(m.chat_id = "a" ∧ m.receiver_id = 1) →
        m ∈ (store_message ⟨[⟨0, "a", 2, 1, 3, "hi", 10, 0⟩],
          [⟨"a", 1, 2, 3, 10⟩], 1⟩ "a" 1 2 3 "re" 20).messages) ∧
    (∀ m ∈ (⟨[⟨0, "a", 2, 1, 3, "hi", 10, 0⟩], [⟨"a", 1, 2, 3, 10⟩], 1⟩ :
        MsgDB).messages, m.chat_id = "a" → m.receiver_id = 1 →
        ({ m with read := 1 } : Msg)
          ∈ (store_message ⟨[⟨0, "a", 2, 1, 3, "hi", 10, 0⟩],
            [⟨"a", 1, 2, 3, 10⟩], 1⟩ "a" 1 2 3 "re" 20).messages) ∧
    (∀ c ∈ (⟨[⟨0, "a", 2, 1, 3, "hi", 10, 0⟩], [⟨"a", 1, 2, 3, 10⟩], 1⟩ :
        MsgDB).chats, c.chat_id = "a" →
        ({ c with last_message_time := 20 } : ChatRow)
          ∈ (store_message ⟨[⟨0, "a", 2, 1, 3, "hi", 10, 0⟩],
            [⟨"a", 1, 2, 3, 10⟩], 1⟩ "a" 1 2 3 "re" 20).chats) ∧
    (∀ c ∈ (⟨[⟨0, "a", 2, 1, 3, "hi", 10, 0⟩], [⟨"a", 1, 2, 3, 10⟩], 1⟩ :
        MsgDB).chats, c.chat_id ≠ "a" →
        c ∈ (store_message ⟨[⟨0, "a", 2, 1, 3, "hi", 10, 0⟩],
          [⟨"a", 1, 2, 3, 10⟩], 1⟩ "a" 1 2 3 "re" 20).chats) :=
  store_message_spec ⟨[⟨0, "a", 2, 1, 3, "hi", 10, 0⟩],
    [⟨"a", 1, 2, 3, 10⟩], 1⟩ "a" 1 2 3 "re" 20

/-- **C7.** On a table in ascending id order (the autoincrement invariant),
`fetch_messages` returns in both directions a window in chronological
order: with `reverse = false` the `limit` rows starting `offset` forward
from the oldest; with `reverse = true` the `limit` rows ending `offset`
back from the newest; both results are ascending in id. -/
theorem fetch_messages_spec (msgs : List Msg) (cid : String) (off lim : Nat)
    (h : msgs.Pairwise (fun a b => a.id < b.id)) :
    (fetch_messages msgs cid off lim false
        = ((msgs.filter (fun m => m.chat_id == cid)).drop off).take lim) ∧
    (fetch_messages msgs cid off lim true
        = ((msgs.filter (fun m => m.chat_id == cid)).take
              ((msgs.filter (fun m => m.chat_id == cid)).length - off)).drop
            ((msgs.filter (fun m => m.chat_id == cid)).length - off - lim)) ∧
    (fetch_messages msgs cid off lim false).Pairwise
      (fun a b => a.id < b.id) ∧
    (fetch_messages msgs cid off lim true).Pairwise
      (fun a b => a.id < b.id) := by
  set fl := msgs.filter (fun m => m.chat_id == cid) with hfl
  have hflp : fl.Pairwise (fun a b => a.id < b.id) :=
    List.Pairwise.sublist (List.filter_sublist _) h
  have hfalse : fetch_messages msgs cid off lim false
      = (fl.drop off).take lim := rfl
  have htrue : fetch_messages msgs cid off lim true
      = ((fl.reverse.drop off).take lim).reverse := rfl
  have hlen : (fl.take (fl.length - off)).length = fl.length - off := by
    rw [List.length_take]; omega
  have htrue2 : fetch_messages msgs cid off lim true
      = (fl.take (fl.length - off)).drop (fl.length - off - lim) := by
    rw [htrue, List.drop_reverse, List.take_reverse, List.reverse_reverse,
      hlen]
  refine ⟨hfalse, htrue2, ?_, ?_⟩
  · rw [hfalse]
    exact List.Pairwise.sublist
      ((List.take_sublist _ _).trans (List.drop_sublist _ _)) hflp
  · rw [htrue2]
    exact List.Pairwise.sublist
      ((List.drop_sublist _ _).trans (List.take_sublist _ _)) hflp

/-- Closed witness for C7: a three-message table, two of them in chat
`"a"`, fetched with offset 1 and limit 1 in both directions. -/
theorem fetch_messages_spec_witness :
    ((fetch_messages [⟨0, "a", 1, 2, 3, "x", 10, 0⟩,
        ⟨1, "b", 1, 2, 4, "y", 11, 0⟩, ⟨2, "a", 2, 1, 3, "z", 12, 0⟩]
        "a" 1 1 false
        = ((([⟨0, "a", 1, 2, 3, "x", 10, 0⟩, ⟨1, "b", 1, 2, 4, "y", 11, 0⟩,
            ⟨2, "a", 2, 1, 3, "z", 12, 0⟩] : List Msg).filter
            (fun m => m.chat_id == "a")).drop 1).take 1) ∧
      (fetch_messages [⟨0, "a", 1, 2, 3, "x", 10, 0⟩,
          ⟨1, "b", 1, 2, 4, "y", 11, 0⟩, ⟨2, "a", 2, 1, 3, "z", 12, 0⟩]
          "a" 1 1 true
        = ((([⟨0, "a", 1, 2, 3, "x", 10, 0⟩, ⟨1, "b", 1, 2, 4, "y", 11, 0⟩,
              ⟨2, "a", 2, 1, 3, "z", 12, 0⟩] : List Msg).filter
              (fun m => m.chat_id == "a")).take
              ((([⟨0, "a", 1, 2, 3, "x", 10, 0⟩,
                  ⟨1, "b", 1, 2, 4, "y", 11, 0⟩,
                  ⟨2, "a", 2, 1, 3, "z", 12, 0⟩] : List Msg).filter
                  (fun m => m.chat_id == "a")).length - 1)).drop
            ((([⟨0, "a", 1, 2, 3, "x", 10, 0⟩, ⟨1, "b", 1, 2, 4, "y", 11, 0⟩,
                ⟨2, "a", 2, 1, 3, "z", 12, 0⟩] : List Msg).filter
                (fun m => m.chat_id == "a")).length - 1 - 1)) ∧
      (fetch_messages [⟨0, "a", 1, 2, 3, "x", 10, 0⟩,
          ⟨1, "b", 1, 2, 4, "y", 11, 0⟩, ⟨2, "a", 2, 1, 3, "z", 12, 0⟩]
          "a" 1 1 false).Pairwise (fun a b => a.id < b.id) ∧
      (fetch_messages [⟨0, "a", 1, 2, 3, "x", 10, 0⟩,
          ⟨1, "b", 1, 2, 4, "y", 11, 0⟩, ⟨2, "a", 2, 1, 3, "z", 12, 0⟩]
          "a" 1 1 true).Pairwise (fun a b => a.id < b.id)) :=
  fetch_messages_spec [⟨0, "a", 1, 2, 3, "x", 10, 0⟩,
    ⟨1, "b", 1, 2, 4, "y", 11, 0⟩, ⟨2, "a", 2, 1, 3, "z", 12, 0⟩]
    "a" 1 1 (by decide)

/-- A status update rewrites the targeted row(s) to the new status. -/
lemma mem_update_listing_status (db : ListingDB) (lid : Nat) (st : String)
    (l : ListingRow) (hl : l ∈ db.listings) (h : l.id = lid) :
    ({ l with status := st } : ListingRow)
      ∈ (update_listing_status db lid st).listings := by
  unfold update_listing_status
  have heq : (if l.id = lid then { l with status := st } else l)
      = ({ l with status := st } : ListingRow) := if_pos h
  exact heq ▸ List.mem_map_of_mem _ hl

/-- A status update leaves rows of other listings untouched. -/
lemma mem_update_listing_status_other (db : ListingDB) (lid : Nat)
    (st : String) (l : ListingRow) (hl : l ∈ db.listings) (h : l.id ≠ lid) :
    l ∈ (update_listing_status db lid st).listings := by
  unfold update_listing_status
  have heq : (if l.id = lid then { l with status := st } else l) = l :=
    if_neg h
  exact heq ▸ List.mem_map_of_mem _ hl

/-- For the admin actor, `admin_accept` writes status `approved`. -/
lemma admin_accept_db (db : ListingDB) (lid : Nat) :
    (admin_accept db ADMIN_ID lid).1
      = update_listing_status db lid "approved" := by
  unfold admin_accept
  simp

/-- For the admin actor, `admin_deny` writes status `denied`. -/
lemma admin_deny_db (db : ListingDB) (lid : Nat) :
    (admin_deny db ADMIN_ID lid).1
      = update_listing_status db lid "denied" := by
  unfold admin_deny
  simp

/-- `finish_editing` writes status `pending` and touches nothing else in
the database. -/
lemma finish_editing_db (db : ListingDB) (lid : Nat) (uid : Int) :
    (finish_editing db lid uid).1
      = update_listing_status db lid "pending" := rfl

/-- **C6.** A moderation action by any actor other than the designated
admin leaves the whole database unchanged, yields the permission answer,
and sends no notification — for accept and deny alike. -/
theorem admin_gate_permission (db : ListingDB) (actor : Int) (lid : Nat)
    (h : actor ≠ ADMIN_ID) :
    admin_accept db actor lid = (db, "Недостаточно прав", []) ∧
    admin_deny db actor lid = (db, "Недостаточно прав", []) := by
  unfold admin_accept admin_deny
  simp [h]

/-- Closed witness for C6: actor 42 is rejected by both gates. -/
theorem admin_gate_permission_witness :
    admin_accept ⟨[⟨1, 5, "Москва", "", "Электроника", "Новое",
        "Телефон", "о", 1500, "pending"⟩], []⟩ 42 1
      = (⟨[⟨1, 5, "Москва", "", "Электроника", "Новое",
          "Телефон", "о", 1500, "pending"⟩], []⟩, "Недостаточно прав", []) ∧
    admin_deny ⟨[⟨1, 5, "Москва", "", "Электроника", "Новое",
        "Телефон", "о", 1500, "pending"⟩], []⟩ 42 1
      = (⟨[⟨1, 5, "Москва", "", "Электроника", "Новое",
          "Телефон", "о", 1500, "pending"⟩], []⟩, "Недостаточно прав", []) :=
  admin_gate_permission ⟨[⟨1, 5, "Москва", "", "Электроника", "Новое",
    "Телефон", "о", 1500, "pending"⟩], []⟩ 42 1 (by decide)

/-- **C3 counterexample.** The moderation gate has no guard on the current
status: on a listing whose status is `denied`, the admin's accept action
rewrites the status to `approved`, and on an `approved` listing the deny
action rewrites it to `denied` — transitions the claim rules out. -/
theorem admin_gate_reverses_decision :
    ((⟨[⟨1, 5, "Москва", "", "Электроника", "Новое", "Телефон", "о",
        1500, "denied"⟩], []⟩ : ListingDB).listings.map
        (fun l => l.status) = ["denied"]) ∧
    ((admin_accept ⟨[⟨1, 5, "Москва", "", "Электроника", "Новое",
        "Телефон", "о", 1500, "denied"⟩], []⟩ ADMIN_ID 1).1.listings.map
        (fun l => l.status) = ["approved"]) ∧
    ((admin_deny ⟨[⟨1, 5, "Москва", "", "Электроника", "Новое",
        "Телефон", "о", 1500, "approved"⟩], []⟩ ADMIN_ID 1).1.listings.map
        (fun l => l.status) = ["denied"]) := by
  refine ⟨rfl, ?_, ?_⟩ <;> decide

/-- **C3 (amended).** The only status writes any operation performs are:
the admin's accept writes `approved` and the admin's deny writes `denied`
— unconditionally, whatever the current status, since the gate checks only
the actor and not the state —, an owner edit completion writes `pending`,
non-admin moderation attempts change nothing, and rows of other listings
are never touched. -/
theorem moderation_status_transitions (db : ListingDB) (actor : Int)
    (lid : Nat) (l : ListingRow) (hl : l ∈ db.listings) :
    (actor = ADMIN_ID → l.id = lid →
      ({ l with status := "approved" } : ListingRow)
          ∈ (admin_accept db actor lid).1.listings ∧
      ({ l with status := "denied" } : ListingRow)
          ∈ (admin_deny db actor lid).1.listings) ∧
    (actor ≠ ADMIN_ID →
      (admin_accept db actor lid).1 = db ∧
      (admin_deny db actor lid).1 = db) ∧
    (l.id ≠ lid →
      l ∈ (admin_accept db actor lid).1.listings ∧
      l ∈ (admin_deny db actor lid).1.listings) ∧
    (l.id = lid →
      ({ l with status := "pending" } : ListingRow)
          ∈ (finish_editing db lid actor).1.listings) := by
  refine ⟨?_, ?_, ?_, ?_⟩
  · intro ha hid
    subst ha
    rw [admin_accept_db, admin_deny_db]
    exact ⟨mem_update_listing_status db lid _ l hl hid,
      mem_update_listing_status db lid _ l hl hid⟩
  · intro ha
    unfold admin_accept admin_deny
    simp [ha]
  · intro hid
    by_cases ha : actor = ADMIN_ID
    · subst ha
      rw [admin_accept_db, admin_deny_db]
      exact ⟨mem_update_listing_status_other db lid _ l hl hid,
        mem_update_listing_status_other db lid _ l hl hid⟩
    · unfold admin_accept admin_deny
      simp only [ne_eq, ha, not_false_iff, if_true]
      exact ⟨hl, hl⟩
  · intro hid
    rw [finish_editing_db]
    exact mem_update_listing_status db lid _ l hl hid

/-- Closed witness for C3 (amended), on a one-listing database with the
admin as actor. -/
theorem moderation_status_transitions_witness :
    ((ADMIN_ID : Int) = ADMIN_ID → (1 : Nat) = 1 →
      ({ (⟨1, 5, "Москва", "", "Электроника", "Новое", "Телефон", "о",
          1500, "denied"⟩ : ListingRow) with status := "approved" }
          ∈ (admin_accept ⟨[⟨1, 5, "Москва", "", "Электроника", "Новое",
            "Телефон", "о", 1500, "denied"⟩], []⟩ ADMIN_ID 1).1.listings ∧
       { (⟨1, 5, "Москва", "", "Электроника", "Новое", "Телефон", "о",
          1500, "denied"⟩ : ListingRow) with status := "denied" }
          ∈ (admin_deny ⟨[⟨1, 5, "Москва", "", "Электроника", "Новое",
            "Телефон", "о", 1500, "denied"⟩], []⟩ ADMIN_ID 1).1.listings)) ∧
    ((ADMIN_ID : Int) ≠ ADMIN_ID →
      (admin_accept ⟨[⟨1, 5, "Москва", "", "Электроника", "Новое",
        "Телефон", "о", 1500, "denied"⟩], []⟩ ADMIN_ID 1).1
        = ⟨[⟨1, 5, "Москва", "", "Электроника", "Новое", "Телефон", "о",
            1500, "denied"⟩], []⟩ ∧
      (admin_deny ⟨[⟨1, 5, "Москва", "", "Электроника", "Новое",
        "Телефон", "о", 1500, "denied"⟩], []⟩ ADMIN_ID 1).1
        = ⟨[⟨1, 5, "Москва", "", "Электроника", "Новое", "Телефон", "о",
            1500, "denied"⟩], []⟩) ∧
    ((⟨1, 5, "Москва", "", "Электроника", "Новое", "Телефон", "о",
        1500, "denied"⟩ : ListingRow).id ≠ 1 →
      (⟨1, 5, "Москва", "", "Электроника", "Новое", "Телефон", "о",
        1500, "denied"⟩ : ListingRow)
        ∈ (admin_accept ⟨[⟨1, 5, "Москва", "", "Электроника", "Новое",
          "Телефон", "о", 1500, "denied"⟩], []⟩ ADMIN_ID 1).1.listings ∧
      (⟨1, 5, "Москва", "", "Электроника", "Новое", "Телефон", "о",
        1500, "denied"⟩ : ListingRow)
        ∈ (admin_deny ⟨[⟨1, 5, "Москва", "", "Электроника", "Новое",
          "Телефон", "о", 1500, "denied"⟩], []⟩ ADMIN_ID 1).1.listings) ∧
    ((⟨1, 5, "Москва", "", "Электроника", "Новое", "Телефон", "о",
        1500, "denied"⟩ : ListingRow).id = 1 →
      { (⟨1, 5, "Москва", "", "Электроника", "Новое", "Телефон", "о",
          1500, "denied"⟩ : ListingRow) with status := "pending" }
        ∈ (finish_editing ⟨[⟨1, 5, "Москва", "", "Электроника", "Новое",
          "Телефон", "о", 1500, "denied"⟩], []⟩ 1 ADMIN_ID).1.listings) :=
  moderation_status_transitions ⟨[⟨1, 5, "Москва", "", "Электроника",
    "Новое", "Телефон", "о", 1500, "denied"⟩], []⟩ ADMIN_ID 1
    ⟨1, 5, "Москва", "", "Электроника", "Новое", "Телефон", "о",
      1500, "denied"⟩ (by simp)

/-- The notification list of `finish_editing`: the user note followed by
the admin note when the listing exists. -/
lemma finish_editing_notes (db : ListingDB) (lid : Nat) (uid : Int) :
    (finish_editing db lid uid).2
      = (uid, "Лот обновлён и отправлен на модерацию.") ::
        (match get_listing (update_listing_status db lid "pending") lid with
         | some (l, _) => [(ADMIN_ID,
             "Обновление лота на модерацию:\nID лота: " ++ toString lid ++
             "\nПродавец: " ++ toString uid ++
             "\nНазвание: " ++ l.title ++
             "\nКатегория: " ++ l.category ++
             "\nЦена: " ++ toString l.price ++ "₽")]
         | none => []) := rfl

/-- After `finish_editing` every row of the edited listing is `pending`. -/
lemma finish_editing_pending (db : ListingDB) (lid : Nat) (uid : Int) :
    ∀ l' ∈ (finish_editing db lid uid).1.listings,
      l'.id = lid → l'.status = "pending" := by
  intro l' hl' hid
  rw [finish_editing_db] at hl'
  unfold update_listing_status at hl'
  rcases List.mem_map.mp hl' with ⟨m, hm, rfl⟩
  by_cases h : m.id = lid
  · rw [if_pos h]
  · rw [if_neg h] at hid
    exact absurd hid h

/-- When the edited listing exists, `finish_editing` emits a notification
to the admin. -/
lemma finish_editing_admin_note (db : ListingDB) (lid : Nat) (uid : Int)
    (hex : ∃ l ∈ db.listings, l.id = lid) :
    ∃ m, (ADMIN_ID, m) ∈ (finish_editing db lid uid).2 := by
  rcases hex with ⟨l, hl, hid⟩
  have hmem : ({ l with status := "pending" } : ListingRow)
      ∈ (update_listing_status db lid "pending").listings :=
    mem_update_listing_status db lid "pending" l hl hid
  have hfind : ((update_listing_status db lid "pending").listings.find?
      (fun x => x.id == lid)).isSome = true :=
    List.find?_isSome.mpr ⟨_, hmem, by simpa using hid⟩
  rcases Option.isSome_iff_exists.mp hfind with ⟨y, hy⟩
  have hget : get_listing (update_listing_status db lid "pending") lid
      = some (y, (((update_listing_status db lid "pending")).photos.filter
          (fun p => p.1 == lid)).map (fun p => p.2)) := by
    unfold get_listing
    rw [hy]
  rw [finish_editing_notes, hget]
  exact ⟨_, List.mem_cons_of_mem _ (List.mem_singleton.mpr rfl)⟩

/-- A field update keeps a row with the edited id present (ids are never
changed by field updates). -/
lemma update_listing_field_exists (db : ListingDB) (lid : Nat)
    (u : FieldUpdate) (hex : ∃ l ∈ db.listings, l.id = lid) :
    ∃ l ∈ (update_listing_field db lid u).listings, l.id = lid := by
  rcases hex with ⟨l, hl, hid⟩
  unfold update_listing_field
  refine ⟨_, List.mem_map_of_mem _ hl, ?_⟩
  rw [if_pos hid]
  cases u <;> simpa using hid

/-- `clear_listing_photos` leaves the `listings` table untouched. -/
lemma clear_listing_photos_listings (db : ListingDB) (lid : Nat) :
    (clear_listing_photos db lid).listings = db.listings := rfl

/-- `attach_photos` leaves the `listings` table untouched. -/
lemma attach_photos_listings (db : ListingDB) (lid : Nat)
    (ps : List String) :
    (attach_photos db lid ps).listings = db.listings := by
  induction ps generalizing db with
  | nil => rfl
  | cons p ps ih =>
      rw [attach_photos, List.foldl_cons]
      exact ih (add_photo db lid p)

/-- The `photos` table after `attach_photos`: the old rows plus one row
per attached file id. -/
lemma attach_photos_photos (db : ListingDB) (lid : Nat) (ps : List String) :
    (attach_photos db lid ps).photos
      = db.photos ++ ps.map (fun p => (lid, p)) := by
  induction ps generalizing db with
  | nil => simp [attach_photos]
  | cons p ps ih =>
      rw [attach_photos, List.foldl_cons]
      have step : List.foldl (fun d q => add_photo d lid q)
          (add_photo db lid p) ps = attach_photos (add_photo db lid p) lid ps := rfl
      rw [step, ih]
      simp [add_photo]

/-- After clearing, no photo row of the listing remains. -/
lemma clear_listing_photos_count (db : ListingDB) (lid : Nat) :
    ((clear_listing_photos db lid).photos.filter
      (fun p => p.1 == lid)) = [] := by
  unfold clear_listing_photos
  rw [List.filter_filter]
  simp

/-- Replacing a listing's photos stores exactly the context photos. -/
lemma replaced_photo_rows (db : ListingDB) (lid : Nat) (ps : List String) :
    ((attach_photos (clear_listing_photos db lid) lid ps).photos.filter
      (fun p => p.1 == lid)).length = ps.length := by
  rw [attach_photos_photos, List.filter_append, clear_listing_photos_count]
  have hall : ((ps.map (fun p => (lid, p))).filter
      (fun p => p.1 == lid)) = ps.map (fun p => (lid, p)) := by
    apply List.filter_eq_self.mpr
    intro a ha
    rcases List.mem_map.mp ha with ⟨x, hx, rfl⟩
    simp
  rw [hall]
  simp

/-- The skip branch of `handle_edit_photos`: a text starting with `проп`
runs `finish_editing` on the untouched database. -/
lemma handle_edit_photos_skip (lid : Nat) (uid : Int) (st : EditPhotoState)
    (s : String) (hdone : st.done = false)
    (hs : pyStartsWith (pyLower s) "проп" = true) :
    handle_edit_photos lid uid st (.text s)
      = { st with
          db := (finish_editing st.db lid uid).1
          notes := st.notes ++ (finish_editing st.db lid uid).2
          done := true } := by
  unfold handle_edit_photos
  rw [hdone]
  simp [hs]

/-- The completing photo branch of `handle_edit_photos`: the third photo
replaces the stored rows and runs `finish_editing`. -/
lemma handle_edit_photos_complete (lid : Nat) (uid : Int)
    (st : EditPhotoState) (f : String) (hdone : st.done = false)
    (hlen : st.edit_photos.length = 2) :
    handle_edit_photos lid uid st (.photo f)
      = { edit_photos := st.edit_photos ++ [f]
          db := (finish_editing
            (attach_photos (clear_listing_photos st.db lid) lid
              (st.edit_photos ++ [f])) lid uid).1
          notes := st.notes ++ (finish_editing
            (attach_photos (clear_listing_photos st.db lid) lid
              (st.edit_photos ++ [f])) lid uid).2
          done := true } := by
  unfold handle_edit_photos
  rw [hdone]
  simp [hlen]

/-- **C8.** On a database containing the edited listing (here with status
`approved`), each completed edit — a price edit on any text, a
category+description edit, or the photo edit completing on the third photo
— leaves every row of that listing with status `pending` and emits a
notification to the admin. -/
theorem edit_completion_resets_status (db : ListingDB) (lid : Nat)
    (uid : Int) (text cat desc f3 : String) (ctx : List String)
    (ns : List (Int × String)) (l : ListingRow) (hl : l ∈ db.listings)
    (hid : l.id = lid) (_hst : l.status = "approved")
    (hctx : ctx.length = 2) :
    ((∀ l' ∈ (handle_edit_price db lid uid text).1.listings,
        l'.id = lid → l'.status = "pending") ∧
      ∃ m, (ADMIN_ID, m) ∈ (handle_edit_price db lid uid text).2) ∧
    ((∀ l' ∈ (handle_edit_description db lid uid cat desc).1.listings,
        l'.id = lid → l'.status = "pending") ∧
      ∃ m, (ADMIN_ID, m) ∈ (handle_edit_description db lid uid cat desc).2) ∧
    ((handle_edit_photos lid uid ⟨ctx, db, ns, false⟩ (.photo f3)).done
        = true ∧
      (∀ l' ∈ (handle_edit_photos lid uid ⟨ctx, db, ns, false⟩
          (.photo f3)).db.listings, l'.id = lid → l'.status = "pending") ∧
      ∃ m, (ADMIN_ID, m) ∈ (handle_edit_photos lid uid
        ⟨ctx, db, ns, false⟩ (.photo f3)).notes) := by
  have hex : ∃ x ∈ db.listings, x.id = lid := ⟨l, hl, hid⟩
  refine ⟨⟨?_, ?_⟩, ⟨?_, ?_⟩, ?_, ?_, ?_⟩
  · exact finish_editing_pending _ lid uid
  · exact finish_editing_admin_note _ lid uid
      (update_listing_field_exists db lid _ hex)
  · exact finish_editing_pending _ lid uid
  · exact finish_editing_admin_note _ lid uid
      (update_listing_field_exists _ lid _
        (update_listing_field_exists db lid _ hex))
  · rw [handle_edit_photos_complete lid uid _ f3 rfl hctx]
  · rw [handle_edit_photos_complete lid uid _ f3 rfl hctx]
    exact finish_editing_pending _ lid uid
  · rw [handle_edit_photos_complete lid uid _ f3 rfl hctx]
    have hex2 : ∃ x ∈ (attach_photos (clear_listing_photos db lid) lid
        (ctx ++ [f3])).listings, x.id = lid := by
      rw [attach_photos_listings, clear_listing_photos_listings]
      exact hex
    rcases finish_editing_admin_note _ lid uid hex2 with ⟨m, hm⟩
    exact ⟨m, List.mem_append_right _ hm⟩

/-- Closed witness for C8, on a one-listing approved database with a
two-photo context completing on a third photo. -/
theorem edit_completion_resets_status_witness :
    ((∀ l' ∈ (handle_edit_price ⟨[⟨1, 5, "Москва", "", "Электроника",
          "Новое", "Телефон", "о", 1500, "approved"⟩], []⟩ 1 5
          "2000").1.listings, l'.id = 1 → l'.status = "pending") ∧
      ∃ m, (ADMIN_ID, m) ∈ (handle_edit_price ⟨[⟨1, 5, "Москва", "",
        "Электроника", "Новое", "Телефон", "о", 1500, "approved"⟩], []⟩
        1 5 "2000").2) ∧
    ((∀ l' ∈ (handle_edit_description ⟨[⟨1, 5, "Москва", "",
          "Электроника", "Новое", "Телефон", "о", 1500, "approved"⟩], []⟩
          1 5 "Транспорт" "новое описание").1.listings,
        l'.id = 1 → l'.status = "pending") ∧
      ∃ m, (ADMIN_ID, m) ∈ (handle_edit_description ⟨[⟨1, 5, "Москва", "",
        "Электроника", "Новое", "Телефон", "о", 1500, "approved"⟩], []⟩
        1 5 "Транспорт" "новое описание").2) ∧
    ((handle_edit_photos 1 5 ⟨["p1", "p2"], ⟨[⟨1, 5, "Москва", "",
        "Электроника", "Новое", "Телефон", "о", 1500, "approved"⟩], []⟩,
        [], false⟩ (.photo "p3")).done = true ∧
      (∀ l' ∈ (handle_edit_photos 1 5 ⟨["p1", "p2"], ⟨[⟨1, 5, "Москва",
          "", "Электроника", "Новое", "Телефон", "о", 1500,
          "approved"⟩], []⟩, [], false⟩ (.photo "p3")).db.listings,
        l'.id = 1 → l'.status = "pending") ∧
      ∃ m, (ADMIN_ID, m) ∈ (handle_edit_photos 1 5 ⟨["p1", "p2"],
        ⟨[⟨1, 5, "Москва", "", "Электроника", "Новое", "Телефон", "о",
          1500, "approved"⟩], []⟩, [], false⟩ (.photo "p3")).notes) :=
  edit_completion_resets_status ⟨[⟨1, 5, "Москва", "", "Электроника",
    "Новое", "Телефон", "о", 1500, "approved"⟩], []⟩ 1 5 "2000"
    "Транспорт" "новое описание" "p3" ["p1", "p2"] []
    ⟨1, 5, "Москва", "", "Электроника", "Новое", "Телефон", "о",
      1500, "approved"⟩ (by simp) rfl rfl rfl

/-- **C10.** In the photo-edit flow, a skip text (lowercased, starting
with `проп`) leaves the `photos` table — and in fact all photo rows —
completely unchanged, yet still sets every row of the edited listing to
`pending` and emits the moderation notification to the admin, provided
the listing exists. -/
theorem edit_photos_skip_frame (db : ListingDB) (lid : Nat) (uid : Int)
    (ctx : List String) (ns : List (Int × String)) (s : String)
    (hs : pyStartsWith (pyLower s) "проп" = true)
    (l : ListingRow) (hl : l ∈ db.listings) (hid : l.id = lid) :
    ((handle_edit_photos lid uid ⟨ctx, db, ns, false⟩ (.text s)).db.photos
        = db.photos) ∧
    (∀ l' ∈ (handle_edit_photos lid uid ⟨ctx, db, ns, false⟩
        (.text s)).db.listings, l'.id = lid → l'.status = "pending") ∧
    (∃ m, (ADMIN_ID, m) ∈ (handle_edit_photos lid uid
        ⟨ctx, db, ns, false⟩ (.text s)).notes) := by
  rw [handle_edit_photos_skip lid uid _ s rfl hs]
  refine ⟨rfl, finish_editing_pending _ lid uid, ?_⟩
  rcases finish_editing_admin_note db lid uid ⟨l, hl, hid⟩ with ⟨m, hm⟩
  exact ⟨m, List.mem_append_right _ hm⟩

/-- Closed witness for C10: skipping with the literal text `Пропустить`
on a one-listing approved database with one unrelated photo row. -/
theorem edit_photos_skip_frame_witness :
    ((handle_edit_photos 1 5 ⟨[], ⟨[⟨1, 5, "Москва", "", "Электроника",
        "Новое", "Телефон", "о", 1500, "approved"⟩], [(2, "q")]⟩, [],
        false⟩ (.text "Пропустить")).db.photos = [(2, "q")]) ∧
    (∀ l' ∈ (handle_edit_photos 1 5 ⟨[], ⟨[⟨1, 5, "Москва", "",
        "Электроника", "Новое", "Телефон", "о", 1500, "approved"⟩],
        [(2, "q")]⟩, [], false⟩ (.text "Пропустить")).db.listings,
      l'.id = 1 → l'.status = "pending") ∧
    (∃ m, (ADMIN_ID, m) ∈ (handle_edit_photos 1 5 ⟨[], ⟨[⟨1, 5, "Москва",
        "", "Электроника", "Новое", "Телефон", "о", 1500, "approved"⟩],
        [(2, "q")]⟩, [], false⟩ (.text "Пропустить")).notes) :=
  edit_photos_skip_frame ⟨[⟨1, 5, "Москва", "", "Электроника", "Новое",
    "Телефон", "о", 1500, "approved"⟩], [(2, "q")]⟩ 1 5 [] []
    "Пропустить" (by decide)
    ⟨1, 5, "Москва", "", "Электроника", "Новое", "Телефон", "о",
      1500, "approved"⟩ (by simp) rfl

/-- One creation-flow photo event keeps the context at three photos or
fewer. -/
lemma handle_listing_photo_le (st : CreatePhotoState) (e : PhotoInput)
    (h : st.photos.length ≤ 3) :
    (handle_listing_photo st e).photos.length ≤ 3 := by
  unfold handle_listing_photo
  by_cases hd : st.advanced = true
  · simp [hd, h]
  · rw [Bool.not_eq_true] at hd
    simp only [hd, Bool.false_eq_true, if_false]
    cases e with
    | text s =>
        by_cases hs : pyStartsWith (pyLower s) "проп" = true
        · simp [hs, h]
        · simp only [hs, Bool.false_eq_true, if_false]
          exact h
    | photo f =>
        by_cases hlen : st.photos.length < 3
        · simp only [hlen, if_true]
          by_cases h2 : (st.photos ++ [f]).length < 3
          · simp only [h2, if_true]
            simp only [List.length_append, List.length_singleton]
            omega
          · simp only [h2, if_false]
            simp only [List.length_append, List.length_singleton]
            omega
        · simp only [hlen, if_false]
          exact h
    | other => exact h

/-- The creation-flow photo step keeps the context at three photos or
fewer over any event sequence. -/
lemma foldl_handle_listing_photo_le (events : List PhotoInput) :
    ∀ st : CreatePhotoState, st.photos.length ≤ 3 →
      (events.foldl handle_listing_photo st).photos.length ≤ 3 := by
  induction events with
  | nil => intro st h; exact h
  | cons e es ih =>
      intro st h
      exact ih _ (handle_listing_photo_le st e h)

/-- One edit-flow photo event preserves: context at most 3 photos, and at
most 3 stored photo rows for the edited listing. -/
lemma handle_edit_photos_inv (lid : Nat) (uid : Int) (st : EditPhotoState)
    (e : PhotoInput) (h1 : st.edit_photos.length ≤ 3)
    (h2 : (st.db.photos.filter (fun p => p.1 == lid)).length ≤ 3) :
    ((handle_edit_photos lid uid st e).edit_photos.length ≤ 3) ∧
    (((handle_edit_photos lid uid st e).db.photos.filter
        (fun p => p.1 == lid)).length ≤ 3) := by
  unfold handle_edit_photos
  by_cases hd : st.done = true
  · simp [hd, h1, h2]
  · rw [Bool.not_eq_true] at hd
    simp only [hd, Bool.false_eq_true, if_false]
    cases e with
    | text s =>
        by_cases hs : pyStartsWith (pyLower s) "проп" = true
        · simp only [hs, if_true]
          exact ⟨h1, h2⟩
        · simp only [hs, Bool.false_eq_true, if_false]
          exact ⟨h1, h2⟩
    | photo f =>
        by_cases hlen : st.edit_photos.length < 3
        · simp only [hlen, if_true]
          by_cases hl2 : (st.edit_photos ++ [f]).length < 3
          · simp only [hl2, if_true]
            constructor
            · simp only [List.length_append, List.length_singleton]
              omega
            · exact h2
          · simp only [hl2, if_false]
            constructor
            · simp only [List.length_append, List.length_singleton]
              omega
            · have hrows : (((finish_editing (attach_photos
                  (clear_listing_photos st.db lid) lid
                  (st.edit_photos ++ [f])) lid uid).1).photos.filter
                  (fun p => p.1 == lid)).length
                  = (st.edit_photos ++ [f]).length := by
                have hph : ((finish_editing (attach_photos
                    (clear_listing_photos st.db lid) lid
                    (st.edit_photos ++ [f])) lid uid).1).photos
                    = (attach_photos (clear_listing_photos st.db lid) lid
                        (st.edit_photos ++ [f])).photos := rfl
                rw [hph, replaced_photo_rows]
              rw [hrows]
              simp only [List.length_append, List.length_singleton]
              omega
        · simp only [hlen, if_false]
          constructor
          · exact h1
          · have hrows : (((finish_editing (attach_photos
                (clear_listing_photos st.db lid) lid
                st.edit_photos) lid uid).1).photos.filter
                (fun p => p.1 == lid)).length
                = st.edit_photos.length := by
              have hph : ((finish_editing (attach_photos
                  (clear_listing_photos st.db lid) lid
                  st.edit_photos) lid uid).1).photos
                  = (attach_photos (clear_listing_photos st.db lid) lid
                      st.edit_photos).photos := rfl
              rw [hph, replaced_photo_rows]
            rw [hrows]
            exact h1
    | other => exact ⟨h1, h2⟩

/-- The edit-flow photo step preserves the photo bounds over any event
sequence. -/
lemma foldl_handle_edit_photos_inv (lid : Nat) (uid : Int)
    (events : List PhotoInput) :
    ∀ st : EditPhotoState, st.edit_photos.length ≤ 3 →
      (st.db.photos.filter (fun p => p.1 == lid)).length ≤ 3 →
      ((events.foldl (handle_edit_photos lid uid) st).edit_photos.length
          ≤ 3) ∧
      (((events.foldl (handle_edit_photos lid uid) st).db.photos.filter
          (fun p => p.1 == lid)).length ≤ 3) := by
  induction events with
  | nil => intro st h1 h2; exact ⟨h1, h2⟩
  | cons e es ih =>
      intro st h1 h2
      rcases handle_edit_photos_inv lid uid st e h1 h2 with ⟨g1, g2⟩
      exact ih _ g1 g2

/-- **C5.** Over any sequence of photo events: the creation flow's context
never exceeds 3 photos, so persisting it for the freshly created listing
(which had no photo rows) stores at most 3 rows; and the photo-edit flow,
started with an empty context on a listing with at most 3 stored rows,
keeps both its context and the listing's stored photo rows at 3 or
fewer. -/
theorem listing_photo_rows_le_three (events : List PhotoInput) (lid : Nat)
    (uid : Int) (db0 edb : ListingDB)
    (hfresh : (db0.photos.filter (fun p => p.1 == lid)).length = 0)
    (hrows : (edb.photos.filter (fun p => p.1 == lid)).length ≤ 3) :
    ((events.foldl handle_listing_photo ⟨[], false⟩).photos.length ≤ 3) ∧
    (((attach_photos db0 lid
        (events.foldl handle_listing_photo ⟨[], false⟩).photos).photos.filter
        (fun p => p.1 == lid)).length ≤ 3) ∧
    ((events.foldl (handle_edit_photos lid uid)
        ⟨[], edb, [], false⟩).edit_photos.length ≤ 3) ∧
    (((events.foldl (handle_edit_photos lid uid)
        ⟨[], edb, [], false⟩).db.photos.filter
        (fun p => p.1 == lid)).length ≤ 3) := by
  have hcreate : (events.foldl handle_listing_photo
      ⟨[], false⟩).photos.length ≤ 3 :=
    foldl_handle_listing_photo_le events ⟨[], false⟩ (by simp)
  have hattach : ∀ ps : List String,
      ((attach_photos db0 lid ps).photos.filter
        (fun p => p.1 == lid)).length = ps.length := by
    intro ps
    rw [attach_photos_photos, List.filter_append]
    have hall : ((ps.map (fun p => (lid, p))).filter
        (fun p => p.1 == lid)) = ps.map (fun p => (lid, p)) := by
      apply List.filter_eq_self.mpr
      intro a ha
      rcases List.mem_map.mp ha with ⟨x, hx, rfl⟩
      simp
    rw [hall, List.length_append, hfresh]
    simp
  rcases foldl_handle_edit_photos_inv lid uid events ⟨[], edb, [], false⟩
    (by simp) hrows with ⟨g1, g2⟩
  refine ⟨hcreate, ?_, g1, g2⟩
  rw [hattach]
  exact hcreate

/-- Closed witness for C5: five photo events (four distinct photos and a
skip) on a fresh listing database and an edit database with one photo
row. -/
theorem listing_photo_rows_le_three_witness :
    ((([.photo "a", .photo "b", .photo "c", .photo "d",
        .text "Пропустить"] : List PhotoInput).foldl
        handle_listing_photo ⟨[], false⟩).photos.length ≤ 3) ∧
    (((attach_photos ⟨[], []⟩ 1
        (([.photo "a", .photo "b", .photo "c", .photo "d",
          .text "Пропустить"] : List PhotoInput).foldl
          handle_listing_photo ⟨[], false⟩).photos).photos.filter
        (fun p => p.1 == 1)).length ≤ 3) ∧
    ((([.photo "a", .photo "b", .photo "c", .photo "d",
        .text "Пропустить"] : List PhotoInput).foldl
        (handle_edit_photos 1 5)
        ⟨[], ⟨[], [(1, "z")]⟩, [], false⟩).edit_photos.length ≤ 3) ∧
    (((([.photo "a", .photo "b", .photo "c", .photo "d",
        .text "Пропустить"] : List PhotoInput).foldl
        (handle_edit_photos 1 5)
        ⟨[], ⟨[], [(1, "z")]⟩, [], false⟩).db.photos.filter
        (fun p => p.1 == 1)).length ≤ 3) :=
  listing_photo_rows_le_three [.photo "a", .photo "b", .photo "c",
    .photo "d", .text "Пропустить"] 1 5 ⟨[], []⟩ ⟨[], [(1, "z")]⟩
    (by decide) (by decide)

/-- Python's `"" in s` is true for every `s`. -/
lemma pyIn_nil : ∀ l : List Char, pyIn [] l = true := by
  intro l
  cases l with
  | nil => rfl
  | cons c rest => rfl

/-- The head of a filtered list is the first element of the original list
satisfying the predicate: everything before it fails the test. -/
lemma filter_head_first {α : Type} (p : α → Bool) :
    ∀ (l : List α) (c : α), (l.filter p).head? = some c →
      p c = true ∧ ∃ l₁ l₂, l = l₁ ++ c :: l₂ ∧ ∀ d ∈ l₁, p d = false := by
  intro l
  induction l with
  | nil => intro c h; simp at h
  | cons a t ih =>
      intro c h
      by_cases hpa : p a = true
      · rw [List.filter_cons_of_pos hpa] at h
        simp only [List.head?_cons, Option.some_inj] at h
        subst h
        exact ⟨hpa, [], t, rfl, by simp⟩
      · rw [List.filter_cons_of_neg hpa] at h
        rcases ih c h with ⟨hp, l₁, l₂, heq, hall⟩
        refine ⟨hp, a :: l₁, l₂, by rw [heq]; rfl, ?_⟩
        intro d hd
        rcases List.mem_cons.mp hd with rfl | hd
        · revert hpa; cases p d <;> simp
        · exact hall d hd

/-- **C9.** At the category step (creation and edit alike), an input that
strips to the empty string is accepted: the case-insensitive substring
match accepts it against every vocabulary entry and the chosen category is
the first one, `Личные вещи`; and in general any accepted input resolves
to the first vocabulary entry it matches — every earlier entry fails the
substring test. -/
theorem handle_category_first_match (s : String) :
    ((pyStrip s).data = [] →
      handle_listing_category s = some "Личные вещи" ∧
      handle_edit_category s = some "Личные вещи" ∧
      ∀ cat ∈ CATEGORIES,
        pyIn (pyLower (pyStrip s)).data (pyLower cat).data = true) ∧
    (∀ c, handle_listing_category s = some c →
      handle_edit_category s = some c ∧
      pyIn (pyLower (pyStrip s)).data (pyLower c).data = true ∧
      ∃ l₁ l₂, CATEGORIES = l₁ ++ c :: l₂ ∧
        ∀ d ∈ l₁,
          pyIn (pyLower (pyStrip s)).data (pyLower d).data = false) := by
  have hlc : handle_listing_category s = (CATEGORIES.filter (fun cat =>
      pyIn (pyLower (pyStrip s)).data (pyLower cat).data)).head? := rfl
  have hec : handle_edit_category s = (CATEGORIES.filter (fun cat =>
      pyIn (pyLower (pyStrip s)).data (pyLower cat).data)).head? := rfl
  constructor
  · intro h
    have hl0 : (pyLower (pyStrip s)).data = [] := by
      show (pyStrip s).data.map pyLowerChar = []
      rw [h]
      rfl
    have hfilter : CATEGORIES.filter (fun cat =>
        pyIn (pyLower (pyStrip s)).data (pyLower cat).data)
        = CATEGORIES := by
      apply List.filter_eq_self.mpr
      intro cat hcat
      rw [hl0]
      exact pyIn_nil _
    refine ⟨?_, ?_, ?_⟩
    · rw [hlc, hfilter]; rfl
    · rw [hec, hfilter]; rfl
    · intro cat hcat
      rw [hl0]
      exact pyIn_nil _
  · intro c hc
    have hc' : (CATEGORIES.filter (fun cat =>
        pyIn (pyLower (pyStrip s)).data (pyLower cat).data)).head?
        = some c := hlc ▸ hc
    rcases filter_head_first _ CATEGORIES c hc' with ⟨hp, l₁, l₂, heq, hall⟩
    exact ⟨hec.trans hc', hp, l₁, l₂, heq, hall⟩

/-- Closed witness for C9: the empty input resolves to `Личные вещи` in
both the creation and the edit category handler, matching every
vocabulary entry. -/
theorem handle_category_first_match_witness :
    handle_listing_category "" = some "Личные вещи" ∧
    handle_edit_category "" = some "Личные вещи" ∧
    ∀ cat ∈ CATEGORIES,
      pyIn (pyLower (pyStrip "")).data (pyLower cat).data = true :=
  (handle_category_first_match "").1 rfl

end Marketplace
